import Mathlib

/-!
Shallow embedding of the LLM Output Verification Pipeline
(`worker/src/lib/llm-verifier/`: `LLMVerifier.ts`, `utils.ts`).

Conventions of the embedding:
* JavaScript numbers are modelled as `ℚ` (every numeric literal and every
  arithmetic operation appearing in this code stays within the rationals);
  token counts are `Nat`.
* JavaScript values flowing through untyped (`any`) positions are modelled by
  the inductive `JsValue`; a missing object property is `Option.none`.
* `JSON.parse` / `Date` / `console` / the provider SDK network calls are the
  platform boundary: the outcome of JSON extraction is part of the modelled
  raw text (`RawText`), timestamps are threaded as a `now : String` argument,
  logging is dropped (it returns no value), and the provider call is an
  explicit `Adapter` function giving the outcome of each attempt.
-/

/-- Model of a JavaScript/JSON value as produced by `JSON.parse`. -/
inductive JsValue : Type where
  | null : JsValue
  | bool : Bool → JsValue
  | num : ℚ → JsValue
  | str : String → JsValue
  | arr : List JsValue → JsValue
  | obj : List (String × JsValue) → JsValue
deriving Inhabited

/-- Property lookup `v[k]`; `none` models JavaScript `undefined`
(lookup on a non-object, or a missing key). -/
def JsValue.getField : JsValue → String → Option JsValue
  | .obj fields, k => fields.lookup k
  | _, _ => none

/-- JavaScript truthiness of a value. -/
def JsValue.truthy : JsValue → Bool
  | .null => false
  | .bool b => b
  | .num q => q != 0
  | .str s => s != ""
  | .arr _ => true
  | .obj _ => true

/-- Truthiness of a possibly-`undefined` value (`Boolean(x)` with `x`
possibly missing). -/
def jsTruthyOpt : Option JsValue → Bool
  | some v => v.truthy
  | none => false

/-- The JavaScript nullish-coalescing operator `x ?? d` for a
possibly-`undefined` `x`. -/
def jsNullish : Option JsValue → JsValue → JsValue
  | some .null, d => d
  | some v, _ => v
  | none, d => d

/-- The JavaScript `x || d` idiom on an optional string (empty string is
falsy). -/
def jsOrStr : Option String → String → String
  | some s, d => if s = "" then d else s
  | none, d => d

/-- The JavaScript `x || d` idiom on an optional count (`0` is falsy). -/
def jsOrNat : Option Nat → Nat → Nat
  | some n, d => if n = 0 then d else n
  | none, d => d

/-- Render a `JsValue` sitting in a string-typed field (the `String(x)`
coercion restricted to the shapes that actually occur; non-string values
get a simple rendering). -/
def JsValue.display : JsValue → String
  | .null => "null"
  | .bool b => if b then "true" else "false"
  | .num q => toString q
  | .str s => s
  | .arr _ => ""
  | .obj _ => "[object Object]"

/-! ### String helpers (JS `String.prototype` operations) -/

/-- Whether `needle` is a prefix of `hay` (character lists). -/
def isPrefixL : List Char → List Char → Bool
  | [], _ => true
  | _ :: _, [] => false
  | a :: as, b :: bs => a == b && isPrefixL as bs

/-- Whether `needle` occurs as a contiguous substring of `hay`
(character lists). -/
def includesL (needle : List Char) : List Char → Bool
  | [] => needle.isEmpty
  | c :: t => isPrefixL needle (c :: t) || includesL needle t

/-- JavaScript `s.includes(sub)`. -/
def jsIncludes (s sub : String) : Bool :=
  includesL sub.data s.data

/-- JavaScript `s.toLowerCase()` (ASCII-adequate, via `Char.toLower`
applied characterwise). -/
def lowerStr (s : String) : String :=
  ⟨s.data.map Char.toLower⟩

/-! ### Data model (`types.ts`) -/

/-- The seven verification criteria flags (`VerificationCriteria`). -/
structure VerificationCriteria where
  toxicity : Bool
  factuality : Bool
  coherence : Bool
  relevance : Bool
  safety : Bool
  moderation : Bool
  bias : Bool
deriving DecidableEq

/-- Per-call options (`VerificationOptions`); absent fields are `none`. -/
structure VerificationOptions where
  type : Option String := none
  model : Option String := none
  temperature : Option ℚ := none
  maxTokens : Option Nat := none
  context : Option String := none
  batchSize : Option Nat := none
  batchIndex : Option Nat := none
  batchTotal : Option Nat := none
deriving DecidableEq

/-- Result for a single category (`CategoryResult`). -/
structure CategoryResult where
  passed : Bool
  score : ℚ
  explanation : String
  details : Option (List JsValue) := none

/-- Verification metrics (`VerificationMetrics`). -/
structure VerificationMetrics where
  latency : Nat
  inputTokens : Nat
  outputTokens : Nat
  totalTokens : Nat
  cost : ℚ
  model : String
  provider : String
  timestamp : String
deriving DecidableEq

/-- Error metadata recorded by `handleVerificationError`. -/
structure ErrorMetadata where
  errorType : String
  errorCode : JsValue
  retryable : Bool
  timestamp : String

/-- The result of one verification (`VerificationResult`). Fields declared
optional in the source (`provider?`, `model?`, `error?`, `metadata?`) are
`Option`s; `issues`/`suggestions` keep raw `JsValue` elements because the
source copies them from untyped JSON without conversion. -/
structure VerificationResult where
  isValid : Bool
  confidence : ℚ
  reason : String
  issues : List JsValue
  suggestions : List JsValue
  categories : List (String × CategoryResult)
  metrics : VerificationMetrics
  provider : Option String := none
  model : Option String := none
  error : Option String := none
  metadata : Option ErrorMetadata := none

/-- A JavaScript error value as inspected by the pipeline:
`message`/`code`/`status` may each be absent, `ctorName` models
`error.constructor.name`. -/
structure JsError where
  message : Option String := none
  code : Option String := none
  status : Option Nat := none
  ctorName : String := "Error"
deriving DecidableEq

/-- Token usage as reported by a provider (`response.usage`). -/
structure LLMUsage where
  prompt_tokens : Nat
  completion_tokens : Nat
  total_tokens : Nat
deriving DecidableEq

/-- The raw provider text together with the outcome of
`extractJSONFromText` on it (`JSON.parse` being a platform primitive):
`json j` models a text from which JSON extraction succeeds with `j`,
`plain s` a text on which it returns `null` (for instance any text that
contains no brace, so that neither the direct parse nor the `\x7b...\x7d`
regex match can succeed). -/
inductive RawText : Type where
  | json : JsValue → RawText
  | plain : String → RawText

/-- A provider response as seen by the pipeline (`LLMResponse`): the
resolved response text (`output_text || choices?.[0]?.message?.content || ""`
collapsed to one field), optional usage and optional model name. -/
structure LLMResponse where
  output_text : RawText
  usage : Option LLMUsage := none
  model : Option String := none

/-! ### Number parsing (JS `parseFloat`) -/

/-- Numeric value of a digit run. -/
def digitsVal (ds : List Char) : Nat :=
  ds.foldl (fun a c => a * 10 + (c.toNat - 48)) 0

/-- Value of an integer digit run together with a fractional digit run,
as a rational. -/
def decimalVal (ip fp : List Char) : ℚ :=
  (digitsVal ip : ℚ) + (digitsVal fp : ℚ) / (10 : ℚ) ^ fp.length

/-- JavaScript `parseFloat` on a character list: skip leading whitespace,
optional sign, integer digits, optional fractional digits, optional
exponent; `none` models `NaN` (no digits found). The `Infinity` literal is
not representable in `ℚ` and is not modelled (no call site produces it). -/
def jsParseFloatL (l : List Char) : Option ℚ :=
  let l := l.dropWhile Char.isWhitespace
  let (sign, l) : ℚ × List Char :=
    match l with
    | '-' :: t => (-1, t)
    | '+' :: t => (1, t)
    | _ => (1, l)
  let ip := l.takeWhile Char.isDigit
  let l := l.drop ip.length
  let (fp, l) : List Char × List Char :=
    match l with
    | '.' :: t => (t.takeWhile Char.isDigit, (t.dropWhile Char.isDigit))
    | _ => ([], l)
  if ip.length + fp.length = 0 then none
  else
    let base := decimalVal ip fp
    let expo : Int :=
      match l with
      | e :: rest =>
        if e = 'e' ∨ e = 'E' then
          let (esign, rest) : Int × List Char :=
            match rest with
            | '-' :: t => (-1, t)
            | '+' :: t => (1, t)
            | _ => (1, rest)
          let ed := rest.takeWhile Char.isDigit
          if ed.isEmpty then 0 else esign * (digitsVal ed : Int)
        else 0
      | [] => 0
    some (sign * base * (10 : ℚ) ^ expo)

/-- JavaScript `parseFloat` on a string. -/
def jsParseFloat (s : String) : Option ℚ :=
  jsParseFloatL s.data

/-! ### `utils.ts`: score normalization and retry classification -/

/-- Source `normalizeScore` (`utils.ts`). The branch order is exactly the
source order: the clamp to `[0,1]` comes first, then the percentage and
scale branches. -/
def normalizeScore (score : ℚ) : ℚ :=
  if score ≤ 0 then 0
  else if score ≥ 1 then 1
  else if score > 100 then score / 100
  else if score > 10 then score / 10
  else if score > 5 then score / 5
  else score

/-- Source `calculateConfidence` (`utils.ts`): a numeric score is
normalized, a numeric string is parsed then normalized, anything else
(including a missing field) yields the `0.5` default. -/
def calculateConfidence : Option JsValue → ℚ
  | some (.num q) => normalizeScore q
  | some (.str s) =>
    match jsParseFloat s with
    | some q => normalizeScore q
    | none => 0.5
  | _ => 0.5

/-- The transport error codes treated as retryable (`networkErrors`). -/
def networkErrors : List String :=
  ["ECONNRESET", "ETIMEDOUT", "ECONNREFUSED",
   "ENOTFOUND", "EAI_AGAIN", "NETWORK_ERROR"]

/-- The retryable HTTP statuses (`retryableStatuses`). -/
def retryableStatuses : List Nat := [408, 429, 500, 502, 503, 504]

/-- Source `isRetryableError` (`utils.ts`). The argument is optional
because the source first tests `if (!error) return false`. Note the status
branch: when the error carries a truthy `status`, the function returns the
status-set membership *unconditionally*, so the message checks below it are
only reached for errors without a status. -/
def isRetryableError : Option JsError → Bool
  | none => false
  | some e =>
    if (match e.code with
        | some c => networkErrors.contains c
        | none => false) then
      true
    else if (match e.status with
             | some s => s != 0
             | none => false) then
      retryableStatuses.contains (e.status.getD 0)
    else if (match e.message with
             | some m =>
               jsIncludes m "rate limit" || jsIncludes m "too many requests" ||
                 jsIncludes m "quota exceeded"
             | none => false) then
      true
    else if (match e.message with
             | some m => jsIncludes m "timeout" || jsIncludes m "timed out"
             | none => false) then
      true
    else false

/-! ### `utils.ts`: prompt construction -/

/-- Source `buildVerificationPrompt` (`utils.ts`): deterministic string
assembly; criteria lines are appended only for flags that are true, the
JSON template always lists all seven categories. -/
def buildVerificationPrompt (input : String) (criteria : VerificationCriteria)
    (context : Option String) : String :=
  "Please verify the following content and provide a structured JSON response.\n\n"
  ++ (match context with
      | some c => if c = "" then "" else "Context: " ++ c ++ "\n\n"
      | none => "")
  ++ "Content to verify: \"" ++ input ++ "\"\n\n"
  ++ "Verification Criteria (check all that apply):\n"
  ++ (if criteria.toxicity then
        "- Toxicity: Check for toxic, hateful, harmful, or abusive content\n" else "")
  ++ (if criteria.factuality then
        "- Factuality: Verify factual accuracy, check for misinformation\n" else "")
  ++ (if criteria.coherence then
        "- Coherence: Check logical flow, consistency, and clarity\n" else "")
  ++ (if criteria.relevance then
        "- Relevance: Check if content is relevant to the intended topic\n" else "")
  ++ (if criteria.safety then
        "- Safety: Check for dangerous, illegal, or policy-violating content\n" else "")
  ++ (if criteria.moderation then
        "- Moderation: Check for inappropriate, explicit, or offensive content\n" else "")
  ++ (if criteria.bias then
        "- Bias: Check for political, racial, gender, or other biases\n" else "")
  ++ "\nRespond with a JSON object in this exact format:\n"
  ++ "\x7b\n  \"isValid\": boolean,\n  \"confidence\": number between 0 and 1,\n"
  ++ "  \"reason\": \"brief explanation\",\n"
  ++ "  \"issues\": [\"specific issue 1\", \"specific issue 2\"],\n"
  ++ "  \"suggestions\": [\"suggestion 1\", \"suggestion 2\"],\n"
  ++ "  \"categories\": \x7b\n"
  ++ "    \"toxicity\": \x7b\"passed\": boolean, \"score\": number, \"explanation\": \"details\"\x7d,\n"
  ++ "    \"factuality\": \x7b\"passed\": boolean, \"score\": number, \"explanation\": \"details\"\x7d,\n"
  ++ "    \"coherence\": \x7b\"passed\": boolean, \"score\": number, \"explanation\": \"details\"\x7d,\n"
  ++ "    \"relevance\": \x7b\"passed\": boolean, \"score\": number, \"explanation\": \"details\"\x7d,\n"
  ++ "    \"safety\": \x7b\"passed\": boolean, \"score\": number, \"explanation\": \"details\"\x7d,\n"
  ++ "    \"moderation\": \x7b\"passed\": boolean, \"score\": number, \"explanation\": \"details\"\x7d,\n"
  ++ "    \"bias\": \x7b\"passed\": boolean, \"score\": number, \"explanation\": \"details\"\x7d\n"
  ++ "  \x7d\n\x7d"
  ++ "\n\nImportant: Only include categories that were requested. Return \"passed\": false and score 0 for categories not checked."

/-! ### `utils.ts`: structured-result validation -/

/-- The seven canonical category names, in source order
(`validCategoryNames`). -/
def validCategoryNames : List String :=
  ["toxicity", "factuality", "coherence", "relevance",
   "safety", "moderation", "bias"]

/-- JavaScript `typeof x === "object"` (true for objects, arrays and
`null`; the call site has already ruled out falsy values, hence `null`). -/
def jsTypeofObject : JsValue → Bool
  | .obj _ => true
  | .arr _ => true
  | .null => true
  | _ => false

/-- The JavaScript `x || d` idiom on a possibly-`undefined` value. -/
def jsOrVal : Option JsValue → JsValue → JsValue
  | some v, d => if v.truthy then v else d
  | none, d => d

/-- Read a value sitting in a `number`-typed position. The TS signature of
`normalizeScore` declares its argument `number`; a value outside that type
is modelled as `0` (no claim depends on such inputs). -/
def jsAsNumber : JsValue → ℚ
  | .num q => q
  | _ => 0

/-- Source `createDefaultResult` (`utils.ts`). `originalInput` is accepted
and ignored exactly as in the source; `now` models
`new Date().toISOString()`. -/
def createDefaultResult (originalInput : String) (now : String) : VerificationResult :=
  { isValid := false
    confidence := 0
    reason := "Verification inconclusive"
    issues := [.str "Unable to verify"]
    suggestions := [.str "Please try again"]
    categories := []
    metrics :=
      { latency := 0
        inputTokens := 0
        outputTokens := 0
        totalTokens := 0
        cost := 0
        model := "unknown"
        provider := "unknown"
        timestamp := now } }

/-- The entry `validateCategories` assigns to one canonical name: coerce a
same-named object entry (`Boolean(passed ?? false)`,
`normalizeScore(score ?? 0)`, `String(explanation || "Not provided")`,
array-only `details`), otherwise synthesize the "not checked" default. -/
def validateCategory (categories : JsValue) (categoryName : String) : CategoryResult :=
  match categories.getField categoryName with
  | some categoryData =>
    if categoryData.truthy && jsTypeofObject categoryData then
      { passed := (jsNullish (categoryData.getField "passed") (.bool false)).truthy
        score := normalizeScore
          (jsAsNumber (jsNullish (categoryData.getField "score") (.num 0)))
        explanation :=
          (jsOrVal (categoryData.getField "explanation") (.str "Not provided")).display
        details :=
          match categoryData.getField "details" with
          | some (.arr xs) => some xs
          | _ => none }
    else
      { passed := false, score := 0, explanation := "Category not checked" }
  | none => { passed := false, score := 0, explanation := "Category not checked" }

/-- Source `validateCategories` (`utils.ts`): one entry per canonical
name, in source order. -/
def validateCategories (categories : JsValue) : List (String × CategoryResult) :=
  validCategoryNames.map fun categoryName =>
    (categoryName, validateCategory categories categoryName)

/-- Source `validateAndFormatResult` (`utils.ts`). -/
def validateAndFormatResult (data : JsValue) (originalInput now : String) :
    VerificationResult :=
  let defaultResult := createDefaultResult originalInput now
  { isValid := jsTruthyOpt (data.getField "isValid")
    confidence := calculateConfidence (data.getField "confidence")
    reason := (jsOrVal (data.getField "reason") (.str defaultResult.reason)).display
    issues :=
      match data.getField "issues" with
      | some (.arr xs) => xs
      | _ => defaultResult.issues
    suggestions :=
      match data.getField "suggestions" with
      | some (.arr xs) => xs
      | _ => defaultResult.suggestions
    categories := validateCategories (jsOrVal (data.getField "categories") (.obj []))
    metrics := defaultResult.metrics }

/-! ### `utils.ts`: free-text fallback -/

/-- Positive-outcome indicator words (`positiveIndicators`). -/
def positiveIndicators : List String :=
  ["valid", "passed", "ok", "good", "safe", "appropriate", "acceptable"]

/-- Negative-outcome indicator words (`negativeIndicators`). -/
def negativeIndicators : List String :=
  ["invalid", "failed", "bad", "unsafe", "inappropriate", "reject"]

/-- Whether some positive indicator occurs in the lowercased text
(`positiveIndicators.some(indicator => textLower.includes(indicator))`). -/
def hasPositiveIndicator (text : String) : Bool :=
  positiveIndicators.any fun indicator => jsIncludes (lowerStr text) indicator

/-- Whether some negative indicator occurs in the lowercased text. -/
def hasNegativeIndicator (text : String) : Bool :=
  negativeIndicators.any fun indicator => jsIncludes (lowerStr text) indicator

/-- Capture of `\d+\.?\d*` starting at a digit: a maximal digit run, then
an optional dot and a maximal digit run. -/
def confCapture (l : List Char) : List Char :=
  let ds := l.takeWhile Char.isDigit
  match l.drop ds.length with
  | '.' :: rest => ds ++ '.' :: rest.takeWhile Char.isDigit
  | _ => ds

/-- Scan forward for the first digit on the current line (the regex `.`
does not cross line terminators); return the `\d+\.?\d*` capture there. -/
def scanNumSameLine : List Char → Option (List Char)
  | [] => none
  | c :: t =>
    if c.isDigit then some (confCapture (c :: t))
    else if c = '\n' ∨ c = '\r' then none
    else scanNumSameLine t

/-- Value of a `\d+\.?\d*` capture (this is `parseFloat` restricted to the
shape the capture can take). -/
def confCaptureVal (cap : List Char) : ℚ :=
  let ip := cap.takeWhile Char.isDigit
  match cap.drop ip.length with
  | '.' :: fp => decimalVal ip fp
  | _ => decimalVal ip []

/-- Leftmost match of `/confidence.*?(\d+\.?\d*)/i` over the text: the
first occurrence of `confidence` (case-insensitively) that still has a
digit ahead of it on the same line yields the number captured there.
(`confidence` cannot overlap itself, so advancing one character at a time
after a failed position is the regex engine behaviour.) -/
def findConfNumber : List Char → Option ℚ
  | [] => none
  | c :: t =>
    if isPrefixL "confidence".data ((c :: t).map Char.toLower) then
      match scanNumSameLine ((c :: t).drop 10) with
      | some cap => some (confCaptureVal cap)
      | none => findConfNumber t
    else findConfNumber t

/-- Confident hedge words (`confidentWords`). -/
def confidentWords : List String :=
  ["definitely", "certainly", "clearly", "obviously", "undoubtedly"]

/-- Uncertain hedge words (`uncertainWords`). -/
def uncertainWords : List String :=
  ["maybe", "perhaps", "possibly", "likely", "probably"]

/-- Number of confident hedge words occurring in the lowercased text. -/
def confidentCount (text : String) : Nat :=
  (confidentWords.filter fun word => jsIncludes (lowerStr text) word).length

/-- Number of uncertain hedge words occurring in the lowercased text. -/
def uncertainCount (text : String) : Nat :=
  (uncertainWords.filter fun word => jsIncludes (lowerStr text) word).length

/-- Source `calculateConfidenceFromText` (`utils.ts`): an explicit
`confidence ... <number>` token is normalized; otherwise the hedge-word
counts decide between `0.8`, `0.4` and the `0.6` tie value. -/
def calculateConfidenceFromText (text : String) : ℚ :=
  match findConfNumber text.data with
  | some q => normalizeScore q
  | none =>
    if confidentCount text > uncertainCount text then 0.8
    else if uncertainCount text > confidentCount text then 0.4
    else 0.6

/-! ### `utils.ts`: reason and list extraction -/

/-- A character matched by the regex class `[:\s]` (as written in the
regex literal of `extractReason`). -/
def isLabelSep (c : Char) : Bool :=
  c = ':' || c.isWhitespace

/-- A character matched by the separator class of the patterns built in
`extractListFromText`. Those regexes come from a template literal, where
the unrecognized escape `\s` cooks to the plain letter `s`, so the class
is `[:s]` — under the `i` flag: colon, `s` or `S` (not whitespace). -/
def isTemplateLabelSep (c : Char) : Bool :=
  c = ':' || c.toLower = 's'

/-- JavaScript `s.trim()` on a character list. -/
def jsTrimL (l : List Char) : List Char :=
  ((l.dropWhile Char.isWhitespace).reverse.dropWhile Char.isWhitespace).reverse

/-- Match of `sep+([^.\n]+)` at the head of the list, for a given
separator class: at least one separator, then the greedy capture of
characters other than `.` and newline (at least one); returns the capture
and the remainder after it. (The corner where the engine would backtrack
the final separator into an otherwise-empty capture is not modelled.) -/
def labelCapture (sep : Char → Bool) (l : List Char) : Option (List Char × List Char) :=
  let seps := l.takeWhile sep
  if seps.isEmpty then none
  else
    let rest := l.drop seps.length
    let cap := rest.takeWhile fun c => !(c = '.' || c = '\n')
    if cap.isEmpty then none
    else some (cap, rest.drop cap.length)

/-- Leftmost match of `/reason[:\s]+([^.\n]+)/i`: the first
(case-insensitive) occurrence of `reason` followed by separators and a
non-empty capture. -/
def findReasonCapture : List Char → Option (List Char)
  | [] => none
  | c :: t =>
    if isPrefixL "reason".data ((c :: t).map Char.toLower) then
      match labelCapture isLabelSep ((c :: t).drop 6) with
      | some (cap, _) => some cap
      | none => findReasonCapture t
    else findReasonCapture t

/-- Source `extractReason` (`utils.ts`): an explicit `reason: ...` pattern,
else the first sentence when long enough, else a fixed string. -/
def extractReason (text : String) : String :=
  match findReasonCapture text.data with
  | some cap => String.mk (jsTrimL cap)
  | none =>
    let firstSentence := (text.splitOn ".").headD ""
    if firstSentence ≠ "" ∧ firstSentence.length > 10 then
      String.mk (jsTrimL firstSentence.data)
    else "Automated analysis completed"

/-- A character matched by the split class `[,;â€¢\-]` (the source
literal holds the mojibake bytes of a bullet, i.e. the three characters
`â`, `€`, `¢`, alongside comma, semicolon and hyphen). -/
def isSplitSep (c : Char) : Bool :=
  c = ',' || c = ';' || c = 'â' || c = '€' || c = '¢' || c = '-'

/-- Split on single separator characters, keeping empty pieces. -/
def splitRawPieces : List Char → List (List Char)
  | [] => [[]]
  | c :: t =>
    if isSplitSep c then [] :: splitRawPieces t
    else
      match splitRawPieces t with
      | h :: rest => (c :: h) :: rest
      | [] => [[c]]

/-- JavaScript `split(/[,;â€¢\-]\s*/)`: each separator also consumes the
whitespace that follows it, i.e. every piece after the first loses its
leading whitespace. -/
def splitListItems (l : List Char) : List String :=
  match splitRawPieces l with
  | h :: rest =>
    String.mk h :: rest.map fun p => String.mk (p.dropWhile Char.isWhitespace)
  | [] => []

/-- Trim the split pieces and keep the non-empty ones
(`parts.map(p => p.trim()).filter(p => p.length > 0)`). -/
def capturedItems (cap : List Char) : List String :=
  ((splitListItems cap).map fun p => String.mk (jsTrimL p.data)).filter
    fun p => p ≠ ""

/-- Match of `s?[:s]+([^.\n]+)` right after the pattern word: the greedy
optional `s?` consumes a leading `s`/`S` first; if the rest of the
pattern then fails, the engine backtracks and retries with `s?` matching
empty (the leading `s` is itself in the separator class `[:s]`). -/
def optionalSCapture (l : List Char) : Option (List Char × List Char) :=
  match l with
  | c2 :: t2 =>
    if c2.toLower = 's' then
      match labelCapture isTemplateLabelSep t2 with
      | some r => some r
      | none => labelCapture isTemplateLabelSep l
    else labelCapture isTemplateLabelSep l
  | [] => none

/-- All matches (`g` flag) of the template-built pattern
`word s?[:s]+([^.\n]+)` (case-insensitive) over the text, each match
contributing its split/trimmed items; scanning resumes after the end of a
match. The first argument is the pattern's base word (the source patterns
`issues?` etc. are a word plus an optional `s`). The fuel argument bounds
the scan and is initialized to the text length, which every
strictly-decreasing scan position respects; the zero-fuel branch is
unreachable from `extractListFromText`. -/
def collectLabelItems (word : List Char) : Nat → List Char → List String
  | _, [] => []
  | 0, _ :: _ => []
  | fuel + 1, c :: t =>
    let l := c :: t
    if isPrefixL word (l.map Char.toLower) then
      match optionalSCapture (l.drop word.length) with
      | some (cap, rest) => capturedItems cap ++ collectLabelItems word fuel rest
      | none => collectLabelItems word fuel t
    else collectLabelItems word fuel t

/-- Keep the first occurrence of each element (`[...new Set(items)]`). -/
def dedupFirst : List String → List String → List String
  | _, [] => []
  | seen, x :: t =>
    if seen.contains x then dedupFirst seen t
    else x :: dedupFirst (x :: seen) t

/-- Source `extractListFromText` (`utils.ts`): for each pattern word,
collect the items of every match, then de-duplicate. -/
def extractListFromText (text : String) (patternWords : List String) : List String :=
  dedupFirst []
    (patternWords.flatMap fun w => collectLabelItems w.data text.data.length text.data)

/-! ### `utils.ts`: response parsing -/

/-- Source `parseUnstructuredResponse` (`utils.ts`): the heuristic
free-text fallback; categories are left empty on this path. -/
def parseUnstructuredResponse (text originalInput now : String) : VerificationResult :=
  let isValid := hasPositiveIndicator text && !hasNegativeIndicator text
  let confidence := calculateConfidenceFromText text
  let issues := extractListFromText text ["issue", "problem", "concern"]
  let suggestions := extractListFromText text ["suggestion", "recommendation", "improvement"]
  { isValid := isValid
    confidence := confidence
    reason := extractReason text
    issues :=
      if issues.length > 0 then issues.map .str
      else [.str "No specific issues mentioned"]
    suggestions :=
      if suggestions.length > 0 then suggestions.map .str
      else [.str "No suggestions provided"]
    categories := []
    metrics := (createDefaultResult originalInput now).metrics }

/-- Source `createErrorResult` (`utils.ts`): the result produced when an
exception escapes the parsing attempt (unreachable in this pure model, but
part of the source contract). -/
def createErrorResult (message originalInput now : String) : VerificationResult :=
  { isValid := false
    confidence := 0
    reason := message
    issues := [.str "Parsing error"]
    suggestions := [.str "Please try again with different input"]
    categories := []
    metrics := (createDefaultResult originalInput now).metrics
    error := some message }

/-- Source `parseLLMResponse` (`utils.ts`): structured validation when
JSON extraction succeeds on the response text, else the free-text
fallback. -/
def parseLLMResponse (response : LLMResponse) (originalInput now : String) :
    VerificationResult :=
  match response.output_text with
  | .json jsonData => validateAndFormatResult jsonData originalInput now
  | .plain responseText => parseUnstructuredResponse responseText originalInput now

/-! ### `LLMVerifier.ts`: provider initialization -/

/-- Provider static descriptor (`ProviderConfig`): name, credential,
base URL, model table, endpoint table and the per-1000-token price pair. -/
structure ProviderConfig where
  name : String
  apiKey : Option String
  baseURL : String
  models : List (String × String)
  endpoints : List (String × String)
  costInputPer1K : ℚ
  costOutputPer1K : ℚ
deriving DecidableEq

/-- The environment bindings read by provider initialization. -/
structure Env where
  AI_PROVIDER : Option String := none
  OPENAI_API_KEY : Option String := none
  OPENAI_BASE_URL : Option String := none
  GEMINI_API_KEY : Option String := none
  GEMINI_BASE_URL : Option String := none
  ANTHROPIC_API_KEY : Option String := none
  ANTHROPIC_BASE_URL : Option String := none
deriving DecidableEq

/-- The `configs.openai` descriptor. -/
def openaiConfig (env : Env) : ProviderConfig :=
  { name := "openai"
    apiKey := env.OPENAI_API_KEY
    baseURL := jsOrStr env.OPENAI_BASE_URL "https://api.openai.com/v1"
    models :=
      [("default", "gpt-4o-mini"), ("fast", "gpt-4o-mini"),
       ("accurate", "gpt-4o"), ("cheap", "gpt-3.5-turbo")]
    endpoints := [("completions", "/completions"), ("chat", "/chat/completions")]
    costInputPer1K := 0.0005
    costOutputPer1K := 0.0015 }

/-- The `configs.gemini` descriptor. -/
def geminiConfig (env : Env) : ProviderConfig :=
  { name := "gemini"
    apiKey := env.GEMINI_API_KEY
    baseURL := jsOrStr env.GEMINI_BASE_URL "https://generativelanguage.googleapis.com/v1"
    models :=
      [("default", "gemini-1.5-pro"), ("fast", "gemini-1.5-flash"),
       ("accurate", "gemini-1.5-pro")]
    endpoints := [("generate", "/models/\x7bmodel\x7d:generateContent")]
    costInputPer1K := 0.000125
    costOutputPer1K := 0.000375 }

/-- The `configs.anthropic` descriptor. -/
def anthropicConfig (env : Env) : ProviderConfig :=
  { name := "anthropic"
    apiKey := env.ANTHROPIC_API_KEY
    baseURL := jsOrStr env.ANTHROPIC_BASE_URL "https://api.anthropic.com/v1"
    models :=
      [("default", "claude-3-haiku"), ("fast", "claude-3-haiku"),
       ("accurate", "claude-3-opus")]
    endpoints := [("messages", "/messages")]
    costInputPer1K := 0.00025
    costOutputPer1K := 0.00125 }

/-- The inherited members of `Object.prototype` that a JavaScript bracket
lookup `configs[providerName]` finds on the prototype chain when
`providerName` is not an own key of the literal
`\x7bopenai: ..., gemini: ..., anthropic: ...\x7d`. Each entry pairs the
property name with the `.name` of the inherited value (the built-in
functions carry their own names, `constructor` is the `Object` function
named `"Object"`, and the `__proto__` accessor yields `Object.prototype`
itself, an object with no `.name` — `none` models `undefined`). All these
inherited values are truthy, so they survive the `|| configs.openai`
fallback. -/
def objectPrototypeMembers : List (String × Option String) :=
  [("constructor", some "Object"),
   ("hasOwnProperty", some "hasOwnProperty"),
   ("isPrototypeOf", some "isPrototypeOf"),
   ("propertyIsEnumerable", some "propertyIsEnumerable"),
   ("toLocaleString", some "toLocaleString"),
   ("toString", some "toString"),
   ("valueOf", some "valueOf"),
   ("__proto__", none),
   ("__defineGetter__", some "__defineGetter__"),
   ("__defineSetter__", some "__defineSetter__"),
   ("__lookupGetter__", some "__lookupGetter__"),
   ("__lookupSetter__", some "__lookupSetter__")]

/-- The value of `configs[providerName] || configs.openai`: either one of
the three provider descriptors, or — when `providerName` collides with an
inherited `Object.prototype` member — that inherited (truthy) value,
recorded by its `.name`. -/
inductive ConfigLookup : Type where
  | config : ProviderConfig → ConfigLookup
  | protoMember : Option String → ConfigLookup
deriving DecidableEq

/-- Source `LLMVerifier.initializeProvider`: the provider name comes from
the option, else the environment, else `openai`; the bracket lookup
`configs[providerName]` finds the three own keys first, then the
inherited `Object.prototype` members (truthy, so kept), and yields
`undefined` for every other name, which the `|| configs.openai` fallback
replaces with the openai descriptor. -/
def initializeProvider (env : Env) (provider : Option String) : ConfigLookup :=
  let providerName := jsOrStr provider (jsOrStr env.AI_PROVIDER "openai")
  if providerName = "openai" then .config (openaiConfig env)
  else if providerName = "gemini" then .config (geminiConfig env)
  else if providerName = "anthropic" then .config (anthropicConfig env)
  else
    match objectPrototypeMembers.lookup providerName with
    | some inheritedName => .protoMember inheritedName
    | none => .config (openaiConfig env)

/-- The provider SDK client object constructed by `initializeClient`
(the constructor calls themselves are the platform boundary; the model
records which constructor ran with which arguments). -/
inductive Client : Type where
  | openai : Option String → String → Client
  | gemini : Option String → Client
  | anthropic : Option String → String → Client
deriving DecidableEq

/-- Source `LLMVerifier.initializeClient`: switch on
`this.providerConfig.name`; the default branch throws
`Unsupported provider: ...`, modelled as `Except.error`. When the stored
value is an inherited `Object.prototype` member, its `.name`
(`"Object"`, `"toString"`, ..., or `undefined` for `__proto__`) matches
none of the three cases, so the default branch throws with that name
interpolated (`undefined` prints as "undefined"). -/
def initializeClient : ConfigLookup → Except String Client
  | .config pc =>
    if pc.name = "openai" then .ok (.openai pc.apiKey pc.baseURL)
    else if pc.name = "gemini" then .ok (.gemini pc.apiKey)
    else if pc.name = "anthropic" then .ok (.anthropic pc.apiKey pc.baseURL)
    else .error ("Unsupported provider: " ++ pc.name)
  | .protoMember inheritedName =>
    .error ("Unsupported provider: " ++ inheritedName.getD "undefined")

/-! ### `LLMVerifier.ts`: orchestrator state and retry loop -/

/-- The verifier instance configuration assembled by the constructor. -/
structure VerifierState where
  defaultModel : String
  maxRetries : Nat
  timeout : Nat
  temperature : ℚ
  maxTokens : Nat
  criteria : VerificationCriteria
  providerConfig : ProviderConfig
  sentryEnabled : Bool

/-- Outcome of one provider attempt, as a function of the prompt, the
options and the retry counter. This is the modelled environment boundary
for the provider SDK call inside `callLLMWithRetry`. -/
def Adapter : Type :=
  String → VerificationOptions → Nat → Except JsError LLMResponse

/-- Observable trace of `callLLMWithRetry`: the final outcome, the total
number of provider attempts made, and the list of backoff delays slept
(milliseconds, in order). -/
structure RetryRun where
  result : Except JsError LLMResponse
  attempts : Nat
  delays : List Nat

/-- Recursion core of `LLMVerifier.callLLMWithRetry`. An attempt that
fails with a retryable error while `retryCount < maxRetries` sleeps
`2 ^ retryCount * 1000` ms and re-enters with `retryCount + 1`; otherwise
the error is rethrown (here: returned). The gas argument bounds the
recursion depth; it is initialized to `maxRetries - retryCount`, which is
invariant along the call chain, so gas reaches `0` exactly when
`retryCount ≥ maxRetries` — there the source guard is false and rethrows,
which is what the zero-gas case returns (without consulting the guard,
whose two branches coincide at that point). -/
def callLLMWithRetryGo (adapter : Adapter) (prompt : String)
    (options : VerificationOptions) (maxRetries : Nat) :
    Nat → Nat → RetryRun
  | 0, retryCount =>
    match adapter prompt options retryCount with
    | .ok response => ⟨.ok response, 1, []⟩
    | .error e => ⟨.error e, 1, []⟩
  | gas + 1, retryCount =>
    match adapter prompt options retryCount with
    | .ok response => ⟨.ok response, 1, []⟩
    | .error e =>
      if retryCount < maxRetries ∧ isRetryableError (some e) = true then
        let rest := callLLMWithRetryGo adapter prompt options maxRetries gas (retryCount + 1)
        ⟨rest.result, rest.attempts + 1, 2 ^ retryCount * 1000 :: rest.delays⟩
      else ⟨.error e, 1, []⟩

/-- Source `LLMVerifier.callLLMWithRetry` started at a given retry
counter (the source default argument is `0`). -/
def callLLMWithRetry (adapter : Adapter) (prompt : String)
    (options : VerificationOptions) (maxRetries retryCount : Nat) : RetryRun :=
  callLLMWithRetryGo adapter prompt options maxRetries (maxRetries - retryCount) retryCount

/-! ### `LLMVerifier.ts`: metrics and error results -/

/-- Source `LLMVerifier.calculateCost`. -/
def calculateCost (cfg : VerifierState) (inputTokens outputTokens : Nat) : ℚ :=
  (inputTokens : ℚ) / 1000 * cfg.providerConfig.costInputPer1K
    + (outputTokens : ℚ) / 1000 * cfg.providerConfig.costOutputPer1K

/-- Source `LLMVerifier.calculateMetrics`. The elapsed wall-clock time
`Date.now() - startTime` is the `latency` argument; reported zero token
counts fall back to the length estimate because `||` treats `0` as falsy. -/
def calculateMetrics (cfg : VerifierState) (response : LLMResponse)
    (latency : Nat) (input : String) (now : String) : VerificationMetrics :=
  let inputTokens :=
    jsOrNat (response.usage.map (·.prompt_tokens)) ((input.length + 3) / 4)
  let outputTokens := jsOrNat (response.usage.map (·.completion_tokens)) 0
  let totalTokens :=
    jsOrNat (response.usage.map (·.total_tokens)) (inputTokens + outputTokens)
  { latency := latency
    inputTokens := inputTokens
    outputTokens := outputTokens
    totalTokens := totalTokens
    cost := calculateCost cfg inputTokens outputTokens
    model := jsOrStr response.model cfg.defaultModel
    provider := cfg.providerConfig.name
    timestamp := now }

/-- Render `error.message` as JavaScript string interpolation would
(`undefined` when the message is absent). -/
def errMessageText (e : JsError) : String :=
  match e.message with
  | some m => m
  | none => "undefined"

/-- Source `LLMVerifier.handleVerificationError`: the terminal-failure
`VerificationResult` (zeroed metrics, empty categories, error recorded). -/
def handleVerificationError (cfg : VerifierState) (e : JsError)
    (input : String) (options : VerificationOptions) (now : String) :
    VerificationResult :=
  { isValid := false
    confidence := 0
    reason := "Verification failed: " ++ errMessageText e
    issues := [.str "LLM API error", .str (errMessageText e)]
    suggestions := [.str "Please try again later", .str "Check API key configuration"]
    categories := []
    metrics :=
      { latency := 0
        inputTokens := 0
        outputTokens := 0
        totalTokens := 0
        cost := 0
        model := jsOrStr options.model cfg.defaultModel
        provider := cfg.providerConfig.name
        timestamp := now }
    provider := some cfg.providerConfig.name
    model := some (jsOrStr options.model cfg.defaultModel)
    error := e.message
    metadata := some
      { errorType := e.ctorName
        errorCode :=
          jsOrVal (e.code.map .str)
            (match e.status with | some s => .num s | none => .null)
        retryable := isRetryableError (some e)
        timestamp := now } }

/-! ### `LLMVerifier.ts`: verify and verifyBatch -/

/-- Source `LLMVerifier.verify`: build the prompt, call the provider with
retries, parse on success and attach metrics/provider/model; any error
escaping the call (a terminal provider failure) is caught and converted by
`handleVerificationError`. Logging, Sentry reporting and the transaction
are effect-only and dropped; `latency` is the measured elapsed time and
`now` the current timestamp. -/
def verify (cfg : VerifierState) (adapter : Adapter) (latency : Nat)
    (now : String) (input : String) (options : VerificationOptions) :
    VerificationResult :=
  let verificationPrompt := buildVerificationPrompt input cfg.criteria options.context
  let run := callLLMWithRetry adapter verificationPrompt options cfg.maxRetries 0
  match run.result with
  | .error e => handleVerificationError cfg e input options now
  | .ok llmResponse =>
    let result := parseLLMResponse llmResponse input now
    { result with
      metrics := calculateMetrics cfg llmResponse latency input now
      provider := some cfg.providerConfig.name
      model := some (jsOrStr options.model cfg.defaultModel) }

/-- The chunk size `options.batchSize || 3` (`0` is falsy). -/
def jsBatchSize : Option Nat → Nat
  | none => 3
  | some 0 => 3
  | some (n + 1) => n + 1

/-- One batch slot: `verify(input, {...options, batchIndex, batchTotal})`
with its per-item `.catch` converting any thrown error to a
`handleVerificationError` result built from the *original* options. The
per-item behaviour of `verify` is the environment here (`verifyFn`),
returning either a result or a thrown error. -/
def batchItemResult (cfg : VerifierState)
    (verifyFn : String → VerificationOptions → Except JsError VerificationResult)
    (options : VerificationOptions) (total : Nat) (now : String)
    (batchIndex : Nat) (input : String) : VerificationResult :=
  match verifyFn input
      { options with batchIndex := some batchIndex, batchTotal := some total } with
  | .ok r => r
  | .error e => handleVerificationError cfg e input options now

/-- Loop core of `LLMVerifier.verifyBatch`: take a chunk of `batchSize`
inputs, map the slots (JS `batch.map((input, index) => ...)`, absolute
index `i + index`), append, continue at `i + batchSize` (the 1s pacing
sleep between chunks is effect-only). The fuel argument is initialized to
the input-list length; it bounds the chunk count, and the zero-fuel branch
is unreachable because every chunk consumes at least one input. -/
def verifyBatchGo (cfg : VerifierState)
    (verifyFn : String → VerificationOptions → Except JsError VerificationResult)
    (options : VerificationOptions) (total : Nat) (now : String)
    (batchSize : Nat) : Nat → Nat → List String → List VerificationResult
  | _, _, [] => []
  | 0, _, _ :: _ => []
  | fuel + 1, i, l@(_ :: _) =>
    ((List.enumFrom i (l.take batchSize)).map fun p =>
        batchItemResult cfg verifyFn options total now p.1 p.2)
      ++ verifyBatchGo cfg verifyFn options total now batchSize fuel (i + batchSize)
          (l.drop batchSize)

/-- Source `LLMVerifier.verifyBatch`. -/
def verifyBatch (cfg : VerifierState)
    (verifyFn : String → VerificationOptions → Except JsError VerificationResult)
    (inputs : List String) (options : VerificationOptions) (now : String) :
    List VerificationResult :=
  verifyBatchGo cfg verifyFn options inputs.length now (jsBatchSize options.batchSize)
    inputs.length 0 inputs

/-! ### Specification-side reading of the documented output schema

These definitions follow the wording of the spec (the documented output
JSON shape and its round-trip property), for comparison against the
parser embedded above. -/

/-- The categories object of a response, as the spec reads it (the parser
applies the `|| \x7b\x7d` default to the same field). -/
def schemaCategoriesVal (j : JsValue) : JsValue :=
  (j.getField "categories").getD (.obj [])

/-- Whether every element of a JSON array is a string. -/
def isStrArr (xs : List JsValue) : Bool :=
  xs.all fun v => match v with | .str _ => true | _ => false

/-- Whether field `k` of `j` is present and a boolean. -/
def isBoolAt (j : JsValue) (k : String) : Bool :=
  match j.getField k with | some (.bool _) => true | _ => false

/-- Whether field `k` of `j` is present and a number in `[0,1]`. -/
def isUnitNumAt (j : JsValue) (k : String) : Bool :=
  match j.getField k with
  | some (.num q) => decide (0 ≤ q) && decide (q ≤ 1)
  | _ => false

/-- Whether field `k` of `j` is present and a string. -/
def isStrAt (j : JsValue) (k : String) : Bool :=
  match j.getField k with | some (.str _) => true | _ => false

/-- Whether field `k` of `j` is present and an array of strings. -/
def isStrArrAt (j : JsValue) (k : String) : Bool :=
  match j.getField k with | some (.arr xs) => isStrArr xs | _ => false

/-- Whether field `k` of `j` is present and an object. -/
def isObjAt (j : JsValue) (k : String) : Bool :=
  match j.getField k with | some (.obj _) => true | _ => false

/-- Whether field `k` of `j` is either absent or an array. -/
def isOptArrAt (j : JsValue) (k : String) : Bool :=
  match j.getField k with
  | none => true
  | some (.arr _) => true
  | _ => false

/-- Whether one category entry matches the documented schema: boolean
`passed`, numeric `score` in `[0,1]`, string `explanation`, optional array
`details`. -/
def schemaCategoryOk (cd : JsValue) : Bool :=
  isBoolAt cd "passed" && isUnitNumAt cd "score" && isStrAt cd "explanation"
    && isOptArrAt cd "details"

/-- Whether a parsed response value matches the documented output schema:
boolean `isValid`, numeric `confidence` in `[0,1]`, string `reason`,
string arrays `issues`/`suggestions`, and a categories object whose seven
canonical entries each match `schemaCategoryOk`. -/
def matchesOutputSchema (j : JsValue) : Bool :=
  isBoolAt j "isValid" && isUnitNumAt j "confidence" && isStrAt j "reason"
    && isStrArrAt j "issues" && isStrArrAt j "suggestions" && isObjAt j "categories"
    && validCategoryNames.all fun n =>
        match (schemaCategoriesVal j).getField n with
        | some cd => schemaCategoryOk cd
        | none => false

/-- The `isValid` of the input JSON, as the spec reads it. -/
def schemaIsValid (j : JsValue) : Bool :=
  match j.getField "isValid" with
  | some (.bool b) => b
  | _ => false

/-- The `confidence` of the input JSON, as the spec reads it. -/
def schemaConfidence (j : JsValue) : ℚ :=
  match j.getField "confidence" with
  | some (.num q) => q
  | _ => 0

/-- The category entry of the input JSON at one canonical name, as the
spec reads it. -/
def schemaCategoryAt (j : JsValue) (n : String) : CategoryResult :=
  match (schemaCategoriesVal j).getField n with
  | some cd =>
    { passed := match cd.getField "passed" with | some (.bool b) => b | _ => false
      score := match cd.getField "score" with | some (.num q) => q | _ => 0
      explanation := match cd.getField "explanation" with | some (.str s) => s | _ => ""
      details := match cd.getField "details" with | some (.arr xs) => some xs | _ => none }
  | none => { passed := false, score := 0, explanation := "" }

/-- The seven category entries of the input JSON, as the spec reads them. -/
def schemaCategories (j : JsValue) : List (String × CategoryResult) :=
  validCategoryNames.map fun n => (n, schemaCategoryAt j n)

/-! ### Concrete scenario inputs and auxiliary spec-side predicates -/

/-- A provider failure with HTTP status 500. -/
def http500Error : JsError :=
  { message := some "Internal Server Error", status := some 500 }

/-- A provider failure with HTTP status 401. -/
def http401Error : JsError :=
  { message := some "Unauthorized", status := some 401 }

/-- A provider failure with HTTP status 403 whose message carries
rate-limit phrasing. -/
def rateLimited403Error : JsError :=
  { message := some "rate limit exceeded", status := some 403 }

/-- An adapter that fails every attempt with HTTP 500. -/
def always500Adapter : Adapter := fun _ _ _ => .error http500Error

/-- An adapter that fails every attempt with HTTP 401. -/
def always401Adapter : Adapter := fun _ _ _ => .error http401Error

/-- A concrete verifier configuration requesting only the toxicity
criterion, on the openai provider. -/
def toxicityOnlyConfig : VerifierState :=
  { defaultModel := "gpt-4o-mini"
    maxRetries := 3
    timeout := 30000
    temperature := 0.7
    maxTokens := 1000
    criteria :=
      { toxicity := true, factuality := false, coherence := false,
        relevance := false, safety := false, moderation := false, bias := false }
    providerConfig := openaiConfig {}
    sentryEnabled := false }

/-- Whether the error carries one of the retryable transport codes (the
first branch of the classifier). -/
def hasNetworkCode (e : JsError) : Bool :=
  match e.code with
  | some c => networkErrors.contains c
  | none => false

/-- Whether the error carries a truthy `status` field. -/
def statusTruthy (e : JsError) : Bool :=
  match e.status with
  | some s => s != 0
  | none => false

/-- Whether the error status lies in the retryable status set. -/
def statusInRetrySet (e : JsError) : Bool :=
  match e.status with
  | some s => retryableStatuses.contains s
  | none => false

/-- Whether the error message matches the rate-limit/quota/timeout
phrasing the classifier looks for. -/
def retryablePhrasing (e : JsError) : Bool :=
  match e.message with
  | some m =>
    jsIncludes m "rate limit" || jsIncludes m "too many requests" ||
      jsIncludes m "quota exceeded" || jsIncludes m "timeout" ||
      jsIncludes m "timed out"
  | none => false

/-- The raw free-text of the malformed-JSON scenario. -/
def malformedScenarioText : String :=
  "isValid: true, confidence is about 0.9, reason: looks fine"

/-- A schema-conforming response value whose toxicity explanation is the
empty string (all other explanations non-empty). -/
def emptyExplanationResponse : JsValue :=
  .obj
    [("isValid", .bool true), ("confidence", .num 0.9),
     ("reason", .str "content is fine"),
     ("issues", .arr []), ("suggestions", .arr []),
     ("categories", .obj
       [("toxicity", .obj
          [("passed", .bool true), ("score", .num 1), ("explanation", .str "")]),
        ("factuality", .obj
          [("passed", .bool true), ("score", .num 0.9), ("explanation", .str "accurate")]),
        ("coherence", .obj
          [("passed", .bool true), ("score", .num 0.8), ("explanation", .str "clear")]),
        ("relevance", .obj
          [("passed", .bool true), ("score", .num 0.7), ("explanation", .str "on topic")]),
        ("safety", .obj
          [("passed", .bool true), ("score", .num 1), ("explanation", .str "harmless")]),
        ("moderation", .obj
          [("passed", .bool true), ("score", .num 1), ("explanation", .str "clean")]),
        ("bias", .obj
          [("passed", .bool false), ("score", .num 0), ("explanation", .str "slanted")])])]

/-- A schema-conforming response value with non-empty explanations
throughout. -/
def wellFormedResponse : JsValue :=
  .obj
    [("isValid", .bool true), ("confidence", .num 0.85),
     ("reason", .str "content verified"),
     ("issues", .arr [.str "minor wording"]), ("suggestions", .arr [.str "tighten intro"]),
     ("categories", .obj
       [("toxicity", .obj
          [("passed", .bool true), ("score", .num 1), ("explanation", .str "no toxicity")]),
        ("factuality", .obj
          [("passed", .bool true), ("score", .num 0.9), ("explanation", .str "accurate")]),
        ("coherence", .obj
          [("passed", .bool true), ("score", .num 0.8), ("explanation", .str "clear")]),
        ("relevance", .obj
          [("passed", .bool true), ("score", .num 0.7), ("explanation", .str "on topic")]),
        ("safety", .obj
          [("passed", .bool true), ("score", .num 1), ("explanation", .str "harmless")]),
        ("moderation", .obj
          [("passed", .bool true), ("score", .num 1), ("explanation", .str "clean")]),
        ("bias", .obj
          [("passed", .bool false), ("score", .num 0.5), ("explanation", .str "slanted")])])]

/-! ### Helper lemmas -/

/-- Characterisation of substring containment. -/
theorem includesL_iff (needle hay : List Char) :
    includesL needle hay = true ↔ ∃ l r, hay = l ++ needle ++ r := by
  induction hay with
  | nil =>
    simp only [includesL, List.isEmpty_iff]
    constructor
    · rintro rfl; exact ⟨[], [], rfl⟩
    · rintro ⟨l, r, h⟩
      rcases List.append_eq_nil.mp (List.append_eq_nil.mp h.symm).1 with ⟨_, h2⟩
      exact h2
  | cons c t ih =>
    simp only [includesL, Bool.or_eq_true]
    constructor
    · rintro (hpre | hrec)
      · refine ⟨[], (c :: t).drop needle.length, ?_⟩
        have : ∀ n l, isPrefixL n l = true → l = n ++ l.drop n.length := by
          intro n
          induction n with
          | nil => intro l _; simp
          | cons a as ihn =>
            intro l hp
            cases l with
            | nil => simp [isPrefixL] at hp
            | cons b bs =>
              simp only [isPrefixL, Bool.and_eq_true, beq_iff_eq] at hp
              obtain ⟨rfl, hp2⟩ := hp
              simpa using ihn bs hp2
        simpa using this needle (c :: t) hpre
      · obtain ⟨l, r, rfl⟩ := ih.mp hrec
        exact ⟨c :: l, r, rfl⟩
    · rintro ⟨l, r, hEq⟩
      cases l with
      | nil =>
        left
        have : ∀ (n rest : List Char), isPrefixL n (n ++ rest) = true := by
          intro n
          induction n with
          | nil => intro rest; cases rest <;> simp [isPrefixL]
          | cons a as ihn => intro rest; simp [isPrefixL, ihn]
        simpa using hEq ▸ this needle r
      | cons x xs =>
        right
        apply ih.mpr
        refine ⟨xs, r, ?_⟩
        simpa using congrArg List.tail hEq

/-- Substring containment is transitive. -/
theorem includesL_trans {a b s : List Char}
    (hab : includesL a b = true) (hbs : includesL b s = true) :
    includesL a s = true := by
  obtain ⟨l₁, r₁, rfl⟩ := (includesL_iff a b).mp hab
  obtain ⟨l₂, r₂, rfl⟩ := (includesL_iff _ s).mp hbs
  exact (includesL_iff a _).mpr ⟨l₂ ++ l₁, r₁ ++ r₂, by simp⟩

/-- A substring of the raw text survives lowercasing provided the needle is
fixed by `Char.toLower`. -/
theorem includesL_map_toLower {needle hay : List Char}
    (hfix : needle.map Char.toLower = needle)
    (h : includesL needle hay = true) :
    includesL needle (hay.map Char.toLower) = true := by
  obtain ⟨l, r, rfl⟩ := (includesL_iff needle hay).mp h
  refine (includesL_iff needle _).mpr
    ⟨l.map Char.toLower, r.map Char.toLower, ?_⟩
  simp [hfix]

/-- The output of `normalizeScore` always lies in `[0,1]`. -/
theorem normalizeScore_mem_unit (q : ℚ) :
    0 ≤ normalizeScore q ∧ normalizeScore q ≤ 1 := by
  unfold normalizeScore
  split_ifs <;> constructor <;> linarith

/-- On inputs already in `[0,1]`, `normalizeScore` is the identity. -/
theorem normalizeScore_of_unit {q : ℚ} (h0 : 0 ≤ q) (h1 : q ≤ 1) :
    normalizeScore q = q := by
  unfold normalizeScore
  split_ifs <;> linarith

/-- `validateCategories` always produces exactly the seven canonical keys,
in order. -/
theorem validateCategories_keys (v : JsValue) :
    (validateCategories v).map Prod.fst = validCategoryNames := by
  simp [validateCategories, validCategoryNames]

/-- `calculateConfidence` always lands in `[0,1]`. -/
theorem calculateConfidence_mem_unit (o : Option JsValue) :
    0 ≤ calculateConfidence o ∧ calculateConfidence o ≤ 1 := by
  unfold calculateConfidence
  rcases o with _ | (_ | b | q | s | xs | fs)
  · norm_num
  · norm_num
  · norm_num
  · exact normalizeScore_mem_unit q
  · rcases h : jsParseFloat s with _ | q
    · simp only [h]; norm_num
    · simp only [h]; exact normalizeScore_mem_unit q
  · norm_num
  · norm_num

/-- `calculateConfidenceFromText` always lands in `[0,1]`. -/
theorem calculateConfidenceFromText_mem_unit (text : String) :
    0 ≤ calculateConfidenceFromText text ∧ calculateConfidenceFromText text ≤ 1 := by
  unfold calculateConfidenceFromText
  cases findConfNumber text.data with
  | some q => simpa using normalizeScore_mem_unit q
  | none => split_ifs <;> norm_num

/-- `parseLLMResponse` always produces a confidence in `[0,1]`. -/
theorem parseLLMResponse_confidence_mem_unit (response : LLMResponse)
    (originalInput now : String) :
    0 ≤ (parseLLMResponse response originalInput now).confidence ∧
      (parseLLMResponse response originalInput now).confidence ≤ 1 := by
  unfold parseLLMResponse
  cases response.output_text with
  | json j =>
    simpa [validateAndFormatResult] using
      calculateConfidence_mem_unit (j.getField "confidence")
  | plain s =>
    simpa [parseUnstructuredResponse] using calculateConfidenceFromText_mem_unit s

/-- The retry loop always makes at least one attempt. -/
theorem callLLMWithRetryGo_attempts_pos (adapter : Adapter) (prompt : String)
    (options : VerificationOptions) (maxRetries : Nat) :
    ∀ gas rc, 1 ≤ (callLLMWithRetryGo adapter prompt options maxRetries gas rc).attempts := by
  intro gas
  induction gas with
  | zero =>
    intro rc
    cases h : adapter prompt options rc <;> simp [callLLMWithRetryGo, h]
  | succ g ih =>
    intro rc
    cases h : adapter prompt options rc with
    | ok r => simp [callLLMWithRetryGo, h]
    | error e =>
      simp only [callLLMWithRetryGo, h]
      split_ifs <;> simp

/-- The retry loop makes at most `gas + 1` attempts. -/
theorem callLLMWithRetryGo_attempts_le (adapter : Adapter) (prompt : String)
    (options : VerificationOptions) (maxRetries : Nat) :
    ∀ gas rc,
      (callLLMWithRetryGo adapter prompt options maxRetries gas rc).attempts ≤ gas + 1 := by
  intro gas
  induction gas with
  | zero =>
    intro rc
    cases h : adapter prompt options rc <;> simp [callLLMWithRetryGo, h]
  | succ g ih =>
    intro rc
    cases h : adapter prompt options rc with
    | ok r => simp [callLLMWithRetryGo, h]
    | error e =>
      simp only [callLLMWithRetryGo, h]
      split_ifs with hg
      · have := ih (rc + 1)
        dsimp only
        omega
      · simp

/-- The backoff delays slept by the retry loop are exactly
`2^rc * 1000, 2^(rc+1) * 1000, ...`, one per retry performed. -/
theorem callLLMWithRetryGo_delays (adapter : Adapter) (prompt : String)
    (options : VerificationOptions) (maxRetries : Nat) :
    ∀ gas rc, (callLLMWithRetryGo adapter prompt options maxRetries gas rc).delays =
      (List.range
        ((callLLMWithRetryGo adapter prompt options maxRetries gas rc).attempts - 1)).map
        fun k => 2 ^ (rc + k) * 1000 := by
  intro gas
  induction gas with
  | zero =>
    intro rc
    cases h : adapter prompt options rc <;> simp [callLLMWithRetryGo, h]
  | succ g ih =>
    intro rc
    cases h : adapter prompt options rc with
    | ok r => simp [callLLMWithRetryGo, h]
    | error e =>
      simp only [callLLMWithRetryGo, h]
      split_ifs with hg
      · obtain ⟨n, hn⟩ : ∃ n,
            (callLLMWithRetryGo adapter prompt options maxRetries g (rc + 1)).attempts
              = n + 1 := by
          have := callLLMWithRetryGo_attempts_pos adapter prompt options maxRetries g (rc + 1)
          exact ⟨(callLLMWithRetryGo adapter prompt options maxRetries g (rc + 1)).attempts - 1,
            by omega⟩
        simp only [ih (rc + 1), hn, Nat.add_sub_cancel, List.range_succ_eq_map,
          List.map_cons, List.map_map]
        refine congrArg₂ _ (by simp) ?_
        apply List.map_congr_left
        intro k _
        simp only [Function.comp]
        congr 2
        omega
      · simp

/-- A first attempt failing with a non-retryable error ends the loop at
once: one attempt, no backoff, the error returned. -/
theorem callLLMWithRetry_nonretryable (adapter : Adapter) (prompt : String)
    (options : VerificationOptions) (maxRetries rc : Nat) (e : JsError)
    (h : adapter prompt options rc = .error e)
    (hr : isRetryableError (some e) = false) :
    callLLMWithRetry adapter prompt options maxRetries rc = ⟨.error e, 1, []⟩ := by
  unfold callLLMWithRetry
  cases hg : maxRetries - rc with
  | zero => simp [callLLMWithRetryGo, h]
  | succ g => simp [callLLMWithRetryGo, h, hr]

/-- `jsBatchSize` is always positive. -/
theorem jsBatchSize_pos (o : Option Nat) : 1 ≤ jsBatchSize o := by
  cases o with
  | none => simp [jsBatchSize]
  | some n => cases n <;> simp [jsBatchSize]

/-- The chunked batch loop is the indexed map of the per-slot function. -/
theorem verifyBatchGo_eq_map (cfg : VerifierState)
    (verifyFn : String → VerificationOptions → Except JsError VerificationResult)
    (options : VerificationOptions) (total : Nat) (now : String)
    (batchSize : Nat) (hbs : 1 ≤ batchSize) :
    ∀ fuel i l, l.length ≤ fuel →
      verifyBatchGo cfg verifyFn options total now batchSize fuel i l =
        (List.enumFrom i l).map fun p =>
          batchItemResult cfg verifyFn options total now p.1 p.2 := by
  intro fuel
  induction fuel with
  | zero =>
    intro i l hl
    have : l = [] := List.eq_nil_of_length_eq_zero (Nat.le_zero.mp hl)
    subst this
    simp [verifyBatchGo]
  | succ f ih =>
    intro i l hl
    cases l with
    | nil => simp [verifyBatchGo]
    | cons a t =>
      simp only [verifyBatchGo]
      rw [ih (i + batchSize) ((a :: t).drop batchSize)
        (by simp only [List.length_drop, List.length_cons]
            simp only [List.length_cons] at hl
            omega)]
      by_cases hlen : (a :: t).length ≤ batchSize
      · rw [List.take_of_length_le hlen, List.drop_eq_nil_of_le hlen]
        simp
      · conv_rhs => rw [← List.take_append_drop batchSize (a :: t)]
        rw [List.enumFrom_append, List.map_append]
        have : ((a :: t).take batchSize).length = batchSize := by
          rw [List.length_take]
          omega
        rw [this]

/-- Shape inversion for `isBoolAt`. -/
theorem isBoolAt_inv {j : JsValue} {k : String} (h : isBoolAt j k = true) :
    ∃ b, j.getField k = some (.bool b) := by
  unfold isBoolAt at h
  rcases hx : j.getField k with _ | (_ | b | q | s | xs | fs) <;> rw [hx] at h <;>
    simp at h
  exact ⟨b, rfl⟩

/-- Shape inversion for `isUnitNumAt`. -/
theorem isUnitNumAt_inv {j : JsValue} {k : String} (h : isUnitNumAt j k = true) :
    ∃ q, j.getField k = some (.num q) ∧ 0 ≤ q ∧ q ≤ 1 := by
  unfold isUnitNumAt at h
  rcases hx : j.getField k with _ | (_ | b | q | s | xs | fs) <;> rw [hx] at h <;>
    simp at h
  exact ⟨q, rfl, h⟩

/-- Shape inversion for `isStrAt`. -/
theorem isStrAt_inv {j : JsValue} {k : String} (h : isStrAt j k = true) :
    ∃ s, j.getField k = some (.str s) := by
  unfold isStrAt at h
  rcases hx : j.getField k with _ | (_ | b | q | s | xs | fs) <;> rw [hx] at h <;>
    simp at h
  exact ⟨s, rfl⟩

/-- Shape inversion for `isObjAt`. -/
theorem isObjAt_inv {j : JsValue} {k : String} (h : isObjAt j k = true) :
    ∃ fs, j.getField k = some (.obj fs) := by
  unfold isObjAt at h
  rcases hx : j.getField k with _ | (_ | b | q | s | xs | fs) <;> rw [hx] at h <;>
    simp at h
  exact ⟨fs, rfl⟩

/-! ### Claims -/

/-- C4: the multi-scale normalization rule does not hold on the code. In
`normalizeScore` the clamp `score >= 1 ↦ 1` precedes the percentage and
scale branches, so every input at least 1 is clamped to 1 and the
`/100`, `/10`, `/5` branches are unreachable: `normalizeScore 85 = 1`
(the claim expects `0.85`), `normalizeScore 8 = 1` (claim: `0.8`),
`normalizeScore 4 = 1` (claim: `0.8`); only the sub-unit boundary cases
behave as claimed. -/
theorem normalizeScore_clamps_before_scaling :
    normalizeScore 85 = 1 ∧ normalizeScore 8 = 1 ∧ normalizeScore 4 = 1 ∧
      normalizeScore 0.5 = 0.5 ∧ normalizeScore 0 = 0 ∧ normalizeScore 1 = 1 := by
  refine ⟨?_, ?_, ?_, ?_, ?_, ?_⟩ <;> norm_num [normalizeScore]

/-- C6 counterexample: an error whose status is 403 and whose message
contains "rate limit" is classified NOT retryable — the status branch of
`isRetryableError` returns unconditionally, so the message checks are
never reached when a truthy status is present (the claim says such an
error is retryable). -/
theorem isRetryableError_rate_limited_403_not_retryable :
    retryablePhrasing rateLimited403Error = true ∧
      isRetryableError (some rateLimited403Error) = false := by
  constructor <;> decide

/-- C6 (amended): `isRetryableError` is a total Boolean predicate (it also
accepts a missing error, returning false) and classifies as retryable
exactly: errors with a retryable transport code; otherwise, errors with a
truthy HTTP status exactly when that status is in
\x7b408, 429, 500, 502, 503, 504\x7d — the message phrasing is consulted only
for errors without a truthy status. In particular the statuses
400/401/403/404 are never retryable, regardless of the message. -/
theorem isRetryableError_characterization :
    isRetryableError none = false ∧
    (∀ e : JsError,
      isRetryableError (some e) =
        (hasNetworkCode e || (statusTruthy e && statusInRetrySet e) ||
          (!statusTruthy e && retryablePhrasing e))) ∧
    (∀ (s : Nat) (msg : Option String) (n : String),
      s ∈ ([400, 401, 403, 404] : List Nat) →
      isRetryableError (some (JsError.mk msg none (some s) n)) = false) := by
  have hmain : ∀ e : JsError,
      isRetryableError (some e) =
        (hasNetworkCode e || (statusTruthy e && statusInRetrySet e) ||
          (!statusTruthy e && retryablePhrasing e)) := by
    intro e
    obtain ⟨msg, code, status, n⟩ := e
    cases status with
    | none =>
      simp only [isRetryableError, hasNetworkCode, statusTruthy, statusInRetrySet,
        retryablePhrasing]
      cases code <;> cases msg <;> dsimp only <;> split_ifs <;> simp_all
    | some s =>
      by_cases hz : s = 0
      · subst hz
        simp only [isRetryableError, hasNetworkCode, statusTruthy, statusInRetrySet,
          retryablePhrasing]
        cases code <;> cases msg <;> dsimp only <;> split_ifs <;> simp_all
      · have hb : (s != 0) = true := bne_iff_ne.mpr hz
        simp only [isRetryableError, hasNetworkCode, statusTruthy, statusInRetrySet,
          retryablePhrasing, hb]
        cases code <;> cases msg <;> dsimp only <;> split_ifs <;> simp_all
  refine ⟨by decide, hmain, ?_⟩
  intro s msg n hs
  rw [hmain]
  have hns : statusInRetrySet (JsError.mk msg none (some s) n) = false := by
    simp only [statusInRetrySet]
    fin_cases hs <;> decide
  simp [hasNetworkCode, hns]
  intro h
  simp only [statusTruthy] at h
  fin_cases hs <;> simp_all

/-- C6 witness: the characterization applied to a concrete non-retryable
status. -/
theorem isRetryableError_characterization_witness :
    isRetryableError
      (some (JsError.mk (some "rate limit exceeded") none (some 403) "Error")) = false :=
  isRetryableError_characterization.2.2 403 (some "rate limit exceeded") "Error"
    (by decide)

/-- C3 counterexample: constructing the verifier with the unsupported
provider name "huggingface" does not fail — `initializeProvider` silently
falls back to the openai descriptor and `initializeClient` then succeeds
with an openai client, so no error surfaces (the claim says construction
fails with a ConfigurationError). -/
theorem unsupported_provider_silently_uses_openai :
    initializeProvider {} (some "huggingface") = .config (openaiConfig {}) ∧
    initializeClient (initializeProvider {} (some "huggingface")) =
      .ok (.openai none "https://api.openai.com/v1") := by
  constructor <;> rfl

/-- C3 (amended): no ConfigurationError exists and unsupported provider
names do not fail with one. For any unsupported, non-empty name that is
not an inherited `Object.prototype` member, the lookup falls back
silently to the openai configuration and client construction succeeds.
Only a name colliding with an inherited `Object.prototype` member
(`constructor`, `toString`, `__proto__`, ...) produces a truthy
prototype-chain hit whose `.name` sends `initializeClient` to its default
branch, which throws a plain `Error("Unsupported provider: ...")` —
concretely, the name "constructor" throws "Unsupported provider: Object". -/
theorem unsupported_provider_fallback_or_proto_throw :
    (∀ (env : Env) (s : String),
      s ∉ (["openai", "gemini", "anthropic"] : List String) → s ≠ "" →
      objectPrototypeMembers.lookup s = none →
      initializeProvider env (some s) = .config (openaiConfig env) ∧
      ∃ c, initializeClient (initializeProvider env (some s)) = .ok c) ∧
    (∀ (env : Env) (s : String) (inheritedName : Option String),
      s ∉ (["openai", "gemini", "anthropic"] : List String) → s ≠ "" →
      objectPrototypeMembers.lookup s = some inheritedName →
      initializeProvider env (some s) = .protoMember inheritedName ∧
      ∃ msg, initializeClient (initializeProvider env (some s)) = .error msg) ∧
    initializeClient (initializeProvider {} (some "constructor")) =
      .error "Unsupported provider: Object" := by
  refine ⟨?_, ?_, rfl⟩
  · intro env s hs hne hproto
    simp only [List.mem_cons, List.not_mem_nil, or_false, not_or] at hs
    obtain ⟨h1, h2, h3⟩ := hs
    have hp : initializeProvider env (some s) = .config (openaiConfig env) := by
      unfold initializeProvider jsOrStr
      simp [hne, h1, h2, h3, hproto]
    exact ⟨hp, ⟨_, by rw [hp]; rfl⟩⟩
  · intro env s inheritedName hs hne hproto
    simp only [List.mem_cons, List.not_mem_nil, or_false, not_or] at hs
    obtain ⟨h1, h2, h3⟩ := hs
    have hp : initializeProvider env (some s) = .protoMember inheritedName := by
      unfold initializeProvider jsOrStr
      simp [hne, h1, h2, h3, hproto]
    exact ⟨hp, ⟨_, by rw [hp]; rfl⟩⟩

/-- C3 witness: the amended theorem applied at the concrete ordinary
unsupported name "ollama" (silent openai fallback) and at the concrete
prototype-member name "toString" (construction throws). -/
theorem unsupported_provider_fallback_or_proto_throw_witness :
    initializeProvider {} (some "ollama") = .config (openaiConfig {}) ∧
      initializeProvider {} (some "toString") = .protoMember (some "toString") :=
  ⟨(unsupported_provider_fallback_or_proto_throw.1 {} "ollama" (by decide) (by decide)
      (by decide)).1,
   (unsupported_provider_fallback_or_proto_throw.2.1 {} "toString" (some "toString")
      (by decide) (by decide) (by decide)).1⟩

/-- C5: the retry loop makes one initial attempt plus at most `maxRetries`
retries; a first attempt failing non-retryably ends after exactly one
attempt with no backoff; the backoff delays double from 1000 ms
(`1s, 2s, 4s, ...`); an adapter that always fails with HTTP 500 under
`maxRetries = 3` is attempted exactly 4 times and ends as an error, and
one that always fails with HTTP 401 is attempted exactly once. -/
theorem callLLMWithRetry_policy :
    (∀ (adapter : Adapter) (prompt : String) (options : VerificationOptions)
       (maxRetries : Nat),
       1 ≤ (callLLMWithRetry adapter prompt options maxRetries 0).attempts ∧
       (callLLMWithRetry adapter prompt options maxRetries 0).attempts ≤ maxRetries + 1 ∧
       (callLLMWithRetry adapter prompt options maxRetries 0).delays =
         (List.range
           ((callLLMWithRetry adapter prompt options maxRetries 0).attempts - 1)).map
           fun k => 2 ^ k * 1000) ∧
    (∀ (adapter : Adapter) (prompt : String) (options : VerificationOptions)
       (maxRetries : Nat) (e : JsError),
       adapter prompt options 0 = .error e → isRetryableError (some e) = false →
       callLLMWithRetry adapter prompt options maxRetries 0 = ⟨.error e, 1, []⟩) ∧
    callLLMWithRetry always500Adapter "p" {} 3 0 =
      ⟨.error http500Error, 4, [1000, 2000, 4000]⟩ ∧
    callLLMWithRetry always401Adapter "p" {} 3 0 = ⟨.error http401Error, 1, []⟩ := by
  refine ⟨?_, ?_, ?_, ?_⟩
  · intro adapter prompt options maxRetries
    refine ⟨callLLMWithRetryGo_attempts_pos adapter prompt options maxRetries _ 0, ?_, ?_⟩
    · have := callLLMWithRetryGo_attempts_le adapter prompt options maxRetries
        (maxRetries - 0) 0
      simpa [callLLMWithRetry] using this
    · have := callLLMWithRetryGo_delays adapter prompt options maxRetries
        (maxRetries - 0) 0
      simpa [callLLMWithRetry] using this
  · intro adapter prompt options maxRetries e h hr
    exact callLLMWithRetry_nonretryable adapter prompt options maxRetries 0 e h hr
  · rfl
  · rfl

/-- C5 witness: the non-retryable clause applied to the HTTP 401
adapter. -/
theorem callLLMWithRetry_policy_witness :
    callLLMWithRetry always401Adapter "q" {} 5 0 = ⟨.error http401Error, 1, []⟩ :=
  callLLMWithRetry_policy.2.1 always401Adapter "q" {} 5 http401Error rfl (by decide)

/-- A string always contains its own suffix. -/
theorem jsIncludes_append_suffix (a m : String) : jsIncludes (a ++ m) m = true := by
  unfold jsIncludes
  exact (includesL_iff _ _).mpr ⟨a.data, [], by simp [String.data_append]⟩

/-- C1: when the provider call fails terminally (the retry loop ends in an
error), `verify` returns the `handleVerificationError` result rather than
propagating an exception: `isValid = false`, `confidence = 0`, a reason
string containing the error message, the `error` field set to the message,
and zeroed latency/token/cost metrics. -/
theorem verify_total_on_provider_failure (cfg : VerifierState) (adapter : Adapter)
    (latency : Nat) (now input : String) (options : VerificationOptions)
    (e : JsError) (m : String)
    (hfail : (callLLMWithRetry adapter
        (buildVerificationPrompt input cfg.criteria options.context) options
        cfg.maxRetries 0).result = .error e)
    (hmsg : e.message = some m) :
    verify cfg adapter latency now input options =
        handleVerificationError cfg e input options now ∧
      (verify cfg adapter latency now input options).isValid = false ∧
      (verify cfg adapter latency now input options).confidence = 0 ∧
      jsIncludes (verify cfg adapter latency now input options).reason m = true ∧
      (verify cfg adapter latency now input options).error = some m ∧
      (verify cfg adapter latency now input options).metrics.latency = 0 ∧
      (verify cfg adapter latency now input options).metrics.inputTokens = 0 ∧
      (verify cfg adapter latency now input options).metrics.outputTokens = 0 ∧
      (verify cfg adapter latency now input options).metrics.totalTokens = 0 ∧
      (verify cfg adapter latency now input options).metrics.cost = 0 := by
  have hv : verify cfg adapter latency now input options =
      handleVerificationError cfg e input options now := by
    unfold verify
    dsimp only
    rw [hfail]
  refine ⟨hv, ?_, ?_, ?_, ?_, ?_, ?_, ?_, ?_, ?_⟩ <;> rw [hv] <;>
    simp [handleVerificationError, errMessageText, hmsg]
  exact jsIncludes_append_suffix "Verification failed: " m

/-- C1 witness: a concrete configuration whose provider always fails with
HTTP 401 yields the error-shaped result. -/
theorem verify_total_on_provider_failure_witness :
    (verify toxicityOnlyConfig always401Adapter 0 "T" "content" {}).isValid = false ∧
      (verify toxicityOnlyConfig always401Adapter 0 "T" "content" {}).error =
        some "Unauthorized" :=
  ⟨(verify_total_on_provider_failure toxicityOnlyConfig always401Adapter 0 "T"
      "content" {} http401Error "Unauthorized" rfl rfl).2.1,
   (verify_total_on_provider_failure toxicityOnlyConfig always401Adapter 0 "T"
      "content" {} http401Error "Unauthorized" rfl rfl).2.2.2.2.1⟩

/-- An adapter that succeeds with a free-text (non-JSON) body. -/
def plainOkAdapter : Adapter :=
  fun _ _ _ => .ok { output_text := .plain "looks good" }

/-- C2 counterexample: with the toxicity criterion requested, a terminal
provider failure produces a result whose categories map is EMPTY — it has
no entry for the requested criterion (the claim says every code path
populates an entry for every requested criterion). -/
theorem verify_error_path_empty_categories :
    toxicityOnlyConfig.criteria.toxicity = true ∧
      (verify toxicityOnlyConfig always401Adapter 0 "T" "content" {}).categories.lookup
        "toxicity" = none := by
  constructor <;> rfl

/-- C2 (amended): on every code path the returned confidence lies in
`[0,1]`; the categories map carries all seven canonical keys exactly on
the structured-parse success path, and is empty (no entry even for
requested criteria) on the free-text fallback path and on the terminal
provider-failure path. -/
theorem verify_confidence_unit_categories_by_path (cfg : VerifierState)
    (adapter : Adapter) (latency : Nat) (now input : String)
    (options : VerificationOptions) :
    (0 ≤ (verify cfg adapter latency now input options).confidence ∧
      (verify cfg adapter latency now input options).confidence ≤ 1) ∧
    (∀ (resp : LLMResponse) (j : JsValue),
      (callLLMWithRetry adapter
        (buildVerificationPrompt input cfg.criteria options.context) options
        cfg.maxRetries 0).result = .ok resp →
      resp.output_text = .json j →
      (verify cfg adapter latency now input options).categories.map Prod.fst =
        validCategoryNames) ∧
    (∀ (resp : LLMResponse) (s : String),
      (callLLMWithRetry adapter
        (buildVerificationPrompt input cfg.criteria options.context) options
        cfg.maxRetries 0).result = .ok resp →
      resp.output_text = .plain s →
      (verify cfg adapter latency now input options).categories = []) ∧
    (∀ e : JsError,
      (callLLMWithRetry adapter
        (buildVerificationPrompt input cfg.criteria options.context) options
        cfg.maxRetries 0).result = .error e →
      (verify cfg adapter latency now input options).categories = []) := by
  refine ⟨?_, ?_, ?_, ?_⟩
  · cases hrun : (callLLMWithRetry adapter
        (buildVerificationPrompt input cfg.criteria options.context) options
        cfg.maxRetries 0).result with
    | error e =>
      unfold verify
      dsimp only
      rw [hrun]
      simp [handleVerificationError]
    | ok resp =>
      unfold verify
      dsimp only
      rw [hrun]
      exact parseLLMResponse_confidence_mem_unit resp input now
  · intro resp j hok hjson
    unfold verify
    dsimp only
    rw [hok]
    simp only [parseLLMResponse, hjson, validateAndFormatResult]
    exact validateCategories_keys _
  · intro resp s hok hplain
    unfold verify
    dsimp only
    rw [hok]
    simp [parseLLMResponse, hplain, parseUnstructuredResponse]
  · intro e herr
    unfold verify
    dsimp only
    rw [herr]
    simp [handleVerificationError]

/-- C2 witness: the fallback clause applied to a provider returning plain
text. -/
theorem verify_confidence_unit_categories_by_path_witness :
    (verify toxicityOnlyConfig plainOkAdapter 0 "T" "content" {}).categories = [] :=
  (verify_confidence_unit_categories_by_path toxicityOnlyConfig plainOkAdapter 0 "T"
      "content" {}).2.2.1 { output_text := .plain "looks good" } "looks good" rfl rfl

/-- C9: on the free-text fallback path, `isValid` is exactly (some
positive indicator occurs) AND NOT (some negative indicator occurs);
the confidence is the normalized explicit `confidence ... <number>` token
when one exists, else 0.8 / 0.4 / 0.6 by comparing the hedge-word counts;
and the malformed-JSON scenario text yields `isValid = true`,
`confidence = 0.9` and empty categories. -/
theorem parseUnstructuredResponse_fallback_semantics :
    (∀ text input now,
      (parseUnstructuredResponse text input now).isValid =
        (hasPositiveIndicator text && !hasNegativeIndicator text)) ∧
    (∀ text input now,
      (parseUnstructuredResponse text input now).confidence =
        calculateConfidenceFromText text) ∧
    (∀ text : String,
      calculateConfidenceFromText text =
        match findConfNumber text.data with
        | some q => normalizeScore q
        | none =>
          if confidentCount text > uncertainCount text then 0.8
          else if uncertainCount text > confidentCount text then 0.4
          else 0.6) ∧
    (parseUnstructuredResponse malformedScenarioText "input" "T").isValid = true ∧
    (parseUnstructuredResponse malformedScenarioText "input" "T").confidence = 0.9 ∧
    (parseUnstructuredResponse malformedScenarioText "input" "T").categories = [] := by
  refine ⟨fun _ _ _ => rfl, fun _ _ _ => rfl, fun _ => rfl, by decide, ?_, rfl⟩
  have h1 : (parseUnstructuredResponse malformedScenarioText "input" "T").confidence =
      normalizeScore (decimalVal ['0'] ['9']) := rfl
  have h2 : decimalVal ['0'] ['9'] = 0.9 := by
    have h0 : ('0'.toNat : Nat) = 48 := rfl
    have h9 : ('9'.toNat : Nat) = 57 := rfl
    norm_num [decimalVal, digitsVal, h0, h9]
  rw [h1, h2, normalizeScore_of_unit (by norm_num) (by norm_num)]

/-- C10: indicator matching is bare substring containment — every text
containing the substring "invalid" thereby contains the positive
indicator "valid" (so the positive flag is set for it), and the non-JSON
text "not valid", which expresses a negative verdict without using any
negative-indicator substring, parses to `isValid = true`. -/
theorem indicator_matching_by_substring :
    (∀ text : String,
      jsIncludes text "invalid" = true → hasPositiveIndicator text = true) ∧
    (parseUnstructuredResponse "not valid" "x" "T").isValid = true := by
  constructor
  · intro text h
    unfold jsIncludes at h
    have hlow : includesL "invalid".data (text.data.map Char.toLower) = true :=
      includesL_map_toLower (by decide) h
    have hvalid : includesL "valid".data (text.data.map Char.toLower) = true :=
      includesL_trans (by decide) hlow
    apply List.any_eq_true.mpr
    exact ⟨"valid", by simp [positiveIndicators],
      by simpa [jsIncludes, lowerStr] using hvalid⟩
  · decide

/-- C10 witness: the substring rule applied at a concrete text containing
"invalid". -/
theorem indicator_matching_by_substring_witness :
    jsIncludes "totally invalid" "invalid" = true ∧
      hasPositiveIndicator "totally invalid" = true :=
  ⟨by decide, indicator_matching_by_substring.1 "totally invalid" (by decide)⟩

/-- C8: `verifyBatch` returns exactly one result per input, in input
order: slot `i` holds the outcome of verifying input `i` (with its batch
position in the options), and an item whose verification throws is
converted to the `handleVerificationError` result in that same slot,
leaving every other slot untouched. -/
theorem verifyBatch_slots (cfg : VerifierState)
    (verifyFn : String → VerificationOptions → Except JsError VerificationResult)
    (inputs : List String) (options : VerificationOptions) (now : String) :
    (verifyBatch cfg verifyFn inputs options now).length = inputs.length ∧
    ∀ i : Nat,
      (verifyBatch cfg verifyFn inputs options now)[i]? =
        (inputs[i]?).map fun input =>
          match verifyFn input
              { options with batchIndex := some i, batchTotal := some inputs.length } with
          | .ok r => r
          | .error e => handleVerificationError cfg e input options now := by
  have hmap : verifyBatch cfg verifyFn inputs options now =
      (List.enumFrom 0 inputs).map fun p =>
        batchItemResult cfg verifyFn options inputs.length now p.1 p.2 :=
    verifyBatchGo_eq_map cfg verifyFn options inputs.length now
      (jsBatchSize options.batchSize) (jsBatchSize_pos options.batchSize)
      inputs.length 0 inputs le_rfl
  constructor
  · rw [hmap, List.length_map, List.enumFrom_length]
  · intro i
    rw [hmap, List.getElem?_map, List.getElem?_enumFrom]
    cases h : inputs[i]? with
    | none => simp
    | some input => simp [batchItemResult]

/-- C7 counterexample: a schema-conforming response whose toxicity
explanation is the empty string does not round-trip — the parser replaces
the falsy explanation with "Not provided", so the parsed categories
differ from those of the input JSON (the claim asserts exact equality for
every schema-conforming input). -/
theorem parse_roundtrip_fails_on_empty_explanation :
    matchesOutputSchema emptyExplanationResponse = true ∧
    ((parseLLMResponse { output_text := .json emptyExplanationResponse } "in" "T").categories.lookup
        "toxicity").map CategoryResult.explanation = some "Not provided" ∧
    ((schemaCategories emptyExplanationResponse).lookup "toxicity").map
        CategoryResult.explanation = some "" ∧
    (parseLLMResponse { output_text := .json emptyExplanationResponse } "in" "T").categories ≠
      schemaCategories emptyExplanationResponse := by
  have h1 : matchesOutputSchema emptyExplanationResponse = true := by
    unfold matchesOutputSchema emptyExplanationResponse schemaCategoriesVal
    simp [isBoolAt, isUnitNumAt, isStrAt, isStrArrAt, isObjAt, isOptArrAt,
      schemaCategoryOk, isStrArr, validCategoryNames, JsValue.getField, List.lookup]
    norm_num
  have h2 : ((parseLLMResponse { output_text := .json emptyExplanationResponse }
      "in" "T").categories.lookup "toxicity").map CategoryResult.explanation =
      some "Not provided" := rfl
  have h3 : ((schemaCategories emptyExplanationResponse).lookup "toxicity").map
      CategoryResult.explanation = some "" := rfl
  refine ⟨h1, h2, h3, fun hEq => ?_⟩
  rw [hEq, h3] at h2
  simp at h2

/-- C7 (amended): the round-trip identity holds for every response value
matching the documented output schema whose seven category explanations
are non-empty strings — parsing yields exactly the input's `isValid`,
`confidence` and seven category entries. (The only deviation within the
schema is the empty explanation string, which the parser replaces.) -/
theorem parseLLMResponse_roundtrip (j : JsValue) (input now : String)
    (hschema : matchesOutputSchema j = true)
    (hexp : ∀ n ∈ validCategoryNames, (schemaCategoryAt j n).explanation ≠ "") :
    (parseLLMResponse { output_text := .json j } input now).isValid = schemaIsValid j ∧
    (parseLLMResponse { output_text := .json j } input now).confidence =
      schemaConfidence j ∧
    (parseLLMResponse { output_text := .json j } input now).categories =
      schemaCategories j := by
  simp only [parseLLMResponse]
  simp only [matchesOutputSchema, Bool.and_eq_true] at hschema
  obtain ⟨⟨⟨⟨⟨⟨hIsV, hConf⟩, hReason⟩, hIss⟩, hSugg⟩, hCats⟩, hAll⟩ := hschema
  obtain ⟨b, hb⟩ := isBoolAt_inv hIsV
  obtain ⟨c, hc, hc0, hc1⟩ := isUnitNumAt_inv hConf
  obtain ⟨fs, hfs⟩ := isObjAt_inv hCats
  refine ⟨?_, ?_, ?_⟩
  · simp [validateAndFormatResult, jsTruthyOpt, hb, JsValue.truthy, schemaIsValid]
  · simp [validateAndFormatResult, hc, calculateConfidence, schemaConfidence,
      normalizeScore_of_unit hc0 hc1]
  · have hcats : jsOrVal (j.getField "categories") (.obj []) = schemaCategoriesVal j := by
      simp [hfs, jsOrVal, JsValue.truthy, schemaCategoriesVal]
    simp only [validateAndFormatResult, hcats]
    unfold validateCategories schemaCategories
    apply List.map_congr_left
    intro n hn
    have hAll' := (List.all_eq_true.mp hAll) n hn
    cases hcd : (schemaCategoriesVal j).getField n with
    | none => rw [hcd] at hAll'; simp at hAll'
    | some cd =>
      rw [hcd] at hAll'
      simp only [schemaCategoryOk, Bool.and_eq_true] at hAll'
      obtain ⟨⟨⟨hp, hsc⟩, hex⟩, hdet⟩ := hAll'
      obtain ⟨bp, hbp⟩ := isBoolAt_inv hp
      obtain ⟨q, hq, hq0, hq1⟩ := isUnitNumAt_inv hsc
      obtain ⟨es, hes⟩ := isStrAt_inv hex
      have hneq : es ≠ "" := by
        have h := hexp n hn
        simp [schemaCategoryAt, hcd, hes] at h
        exact h
      obtain ⟨cfs, rfl⟩ : ∃ cfs, cd = .obj cfs := by
        cases cd <;> simp [JsValue.getField] at hbp ⊢
      have htr : (JsValue.obj cfs).truthy = true := rfl
      have hto : jsTypeofObject (.obj cfs) = true := rfl
      simp only [validateCategory, schemaCategoryAt, hcd, htr, hto, Bool.and_self,
        if_true, hbp, hq, hes, jsNullish, JsValue.truthy, jsAsNumber, jsOrVal,
        JsValue.display, normalizeScore_of_unit hq0 hq1]
      simp [hneq, bne_iff_ne.mpr hneq]

/-- C7 witness: the round trip applied to a concrete well-formed
response. -/
theorem parseLLMResponse_roundtrip_witness :
    matchesOutputSchema wellFormedResponse = true ∧
      (parseLLMResponse { output_text := .json wellFormedResponse } "in" "T").isValid =
        schemaIsValid wellFormedResponse ∧
      (parseLLMResponse { output_text := .json wellFormedResponse } "in" "T").confidence =
        schemaConfidence wellFormedResponse ∧
      (parseLLMResponse { output_text := .json wellFormedResponse } "in" "T").categories =
        schemaCategories wellFormedResponse := by
  have h1 : matchesOutputSchema wellFormedResponse = true := by
    unfold matchesOutputSchema wellFormedResponse schemaCategoriesVal
    simp [isBoolAt, isUnitNumAt, isStrAt, isStrArrAt, isObjAt, isOptArrAt,
      schemaCategoryOk, isStrArr, validCategoryNames, JsValue.getField, List.lookup]
    norm_num
  have h2 := parseLLMResponse_roundtrip wellFormedResponse "in" "T" h1 (by decide)
  exact ⟨h1, h2.1, h2.2.1, h2.2.2⟩
